import Mathlib

/-!
Verification of the register-coverage matrix model of the
`dashboard` repository (`dashboard/app.py`).

The embedding covers:
* `load_register_matrix` (app.py lines 112-148): loading the 16x16 register
  coverage matrix from a JSON artifact, with reshape of flat-256 input and
  fallback to a seeded synthetic demo fixture;
* the tab-2 address lookup (app.py lines 466-499): hex address parsing,
  range guard, and point query on the stored matrix;
* the tab-2 heatmap rendering (app.py lines 368-375): `np.flipud` applied
  for display only;
* the threshold scan over all 256 cells (the `problem_addrs` loop,
  app.py lines 514-536; this block is commented out in the source but is
  the repository's only implementation of the threshold-scan contract,
  so it is embedded as written there).

Python/numpy values are modelled shallowly: a JSON leaf is a number or a
string (`PyVal`); the payload handed to `np.array` is a scalar, a list of
leaves, or a list of lists of leaves (`NpData`), with an `invalid`
constructor standing for payloads `np.array` rejects (ragged nesting,
mixed scalar/list content) or that only produce arrays of dimension at
least 3, none of which can pass the `(16, 16)` shape test.  Numbers are
modelled as `Int` (the repository never divides cell values, and numpy's
int/float distinction plays no role in any control-flow decision).
-/

/-- A scalar JSON/numpy cell value: a number or a string.  Strings appear
because `np.array` happily builds string-dtype arrays from non-numeric
JSON content and `load_register_matrix` never inspects the dtype. -/
inductive PyVal where
  | num (n : Int)
  | str (s : String)
deriving DecidableEq, Repr

/-- True exactly on numeric cell values. -/
def PyVal.isNum : PyVal → Bool
  | .num _ => true
  | .str _ => false

/-- The payload handed to `np.array` in `load_register_matrix`:
either a JSON scalar (0-d array), a flat list of scalars (1-d array),
a list of lists of scalars (2-d array when rectangular, an error when
ragged), or anything else (`invalid`): deeper or inhomogeneous nesting,
which `np.array` either rejects or turns into an array of dimension
at least 3; in every such case the `(16, 16)` shape test fails and the
loader falls back to the demo fixture, so `invalid` is mapped to the
no-shape outcome. -/
inductive NpData where
  | scalar (v : PyVal)
  | flat (xs : List PyVal)
  | nested (xss : List (List PyVal))
  | invalid
deriving DecidableEq, Repr

/-- The shape of `np.array(payload)`, `none` when `np.array` raises
(ragged rows) or when the result cannot possibly have shape `(16, 16)`
because its dimension is at least 3 (`invalid`). -/
def npShape : NpData → Option (List Nat)
  | .scalar _ => some []
  | .flat xs => some [xs.length]
  | .nested [] => some [0]
  | .nested (r :: rest) =>
      if rest.all (fun r2 => r2.length = r.length) then
        some ((r :: rest).length :: [r.length])
      else none
  | .invalid => none

/-- The 16x16 register coverage matrix, indexed `matrix[high][low]`. -/
abbrev Matrix16 := Fin 16 → Fin 16 → PyVal

/-- `matrix[i, j] = v`: numpy item assignment as a functional update. -/
def setCell (m : Matrix16) (i j : Fin 16) (v : PyVal) : Matrix16 :=
  fun h l => if h = i ∧ l = j then v else m h l

/-- The state of numpy's global pseudo-random generator. -/
structure RngState where
  val : Nat
deriving DecidableEq, Repr

/-- One step of the modelled generator (a 31-bit linear congruential map). -/
def lcgStep (s : Nat) : Nat := (1103515245 * s + 12345) % 2 ^ 31

/-- Modelled from the spec: `np.random.seed(seed)` — numpy itself is not
part of this repository; the spec only requires that seeding makes the
subsequent draws a deterministic function of `seed` alone, so seeding
discards the previous global state entirely. -/
def npSeed (seed : Nat) (_prev : RngState) : RngState := ⟨lcgStep seed⟩

/-- Modelled from the spec: `np.random.randint(lo, hi, ...)` draws,
as a list of `n` values each in `[lo, hi)` (numpy's `randint` excludes
`hi`), advancing the global generator state. -/
def npRandintList (lo hi : Nat) : Nat → RngState → List Nat × RngState
  | 0, st => ([], st)
  | n + 1, st =>
      let v := lo + (st.val / 65536) % (hi - lo)
      let res := npRandintList lo hi n ⟨lcgStep st.val⟩
      (v :: res.1, res.2)

/-- The row-major base fill of the demo fixture:
`np.random.seed(42)` then `np.random.randint(60, 101, (16, 16))`
(app.py lines 143-144), read at row `h`, column `l`. -/
def demoFill (prev : RngState) (h l : Fin 16) : Int :=
  ((npRandintList 60 101 256 (npSeed 42 prev)).1.getD (16 * h.val + l.val) 0 : Nat)

/-- The synthetic demo fixture (app.py lines 142-148): seeded uniform fill
in `[60, 100]`, then the three fixed low-coverage overrides
`matrix[5, 5] = 45`, `matrix[10, 10] = 52`, `matrix[3, 12] = 38`. -/
def demoFrom (prev : RngState) : Matrix16 :=
  setCell
    (setCell
      (setCell (fun h l => .num (demoFill prev h l)) 5 5 (.num 45))
      10 10 (.num 52))
    3 12 (.num 38)

/-- The possible states of the `results/register_matrix.json` artifact as
seen by `load_register_matrix`: absent file; unreadable/unparsable file
(`open`/`json.load` raises); a JSON object carrying a `matrix` key; a JSON
object without that key (the `raise ValueError` branch); a bare top-level
JSON array; any other top-level JSON value (also the `raise ValueError`
branch). -/
inductive LoadInput where
  | absent
  | unreadable
  | objWithMatrix (d : NpData)
  | objNoMatrix
  | bareArray (d : NpData)
  | otherTop
deriving DecidableEq, Repr

/-- Reading a 1-d payload after `matrix.reshape(16, 16)`: cell `(h, l)`
is element `16 * h + l` (numpy reshape is row-major). -/
def flatMatrix (d : NpData) : Matrix16 := fun h l =>
  match d with
  | .flat xs => xs.getD (16 * h.val + l.val) (.num 0)
  | _ => .num 0

/-- Reading a payload that already has shape `(16, 16)`. -/
def nestedMatrix (d : NpData) : Matrix16 := fun h l =>
  match d with
  | .nested xss => (xss.getD h.val []).getD l.val (.num 0)
  | _ => .num 0

/-- The body of the `try` block of `load_register_matrix` once a payload
has been selected (app.py lines 130-140): reshape a 1-d size-256 array
row-major, return the array if its shape is `(16, 16)`, and otherwise —
including when `np.array` raised — fall through to the demo fixture. -/
def buildOrDemo (d : NpData) (prev : RngState) : Matrix16 :=
  match npShape d with
  | none => demoFrom prev
  | some s =>
      if s = [256] then flatMatrix d
      else if s = [16, 16] then nestedMatrix d
      else demoFrom prev

/-- `load_register_matrix` (app.py lines 112-148).  Every branch is total:
the Python `except` around the parse/validate block swallows every
exception and falls through to the demo fixture, so no exception escapes
to the caller.  `prev` is the global numpy generator state before the
call. -/
def load_register_matrix (inp : LoadInput) (prev : RngState) : Matrix16 :=
  match inp with
  | .absent => demoFrom prev
  | .unreadable => demoFrom prev
  | .objWithMatrix d => buildOrDemo d prev
  | .objNoMatrix => demoFrom prev
  | .bareArray d => buildOrDemo d prev
  | .otherTop => demoFrom prev

/-- The outcome that the tab-2 address search renders (app.py lines
466-499): a coverage value shown via `st.metric`; the range error
`st.error("Некорректный адрес")`; the parse-failure error
`st.error("Введите адрес в формате: A3, 7F, 00 и т.д.")` produced by the
`except` clause when `int(..., 16)` raises; or nothing at all (the
`len(addr_input) == 2` test fails and no branch runs). -/
inductive LookupOutcome where
  | shown (v : PyVal)
  | errRange
  | errFormat
  | silent
deriving DecidableEq, Repr

/-- Python `int(c, 16)` on a single character: a hex digit value, `none`
when the conversion raises `ValueError`. -/
def hexDigitVal (c : Char) : Option Nat :=
  let n := c.toNat
  if 48 ≤ n ∧ n ≤ 57 then some (n - 48)       -- decimal digits
  else if 65 ≤ n ∧ n ≤ 70 then some (n - 55)  -- uppercase A-F
  else if 97 ≤ n ∧ n ≤ 102 then some (n - 87) -- lowercase a-f
  else none

/-- The guarded point query inside the tab-2 lookup (app.py lines
473-492): `if 0 <= high < 16 and 0 <= low < 16:` show
`register_matrix[high, low]`, `else:` the range error. -/
def rangeGuardedQuery (m : Matrix16) (high low : Int) : LookupOutcome :=
  if h : 0 ≤ high ∧ high < 16 ∧ 0 ≤ low ∧ low < 16 then
    .shown (m ⟨high.toNat, by omega⟩ ⟨low.toNat, by omega⟩)
  else .errRange

/-- The full tab-2 address lookup (app.py lines 467-499).  The text-input
string is modelled as a list of characters; the source uppercases it
(`.upper()`), runs the two-character length test, parses the two hex
digits (`int(addr_input[0], 16)`, `int(addr_input[1], 16)`, failure
lands in the `except` clause), and applies the range-guarded query to
the stored, unflipped matrix. -/
def addrLookup (m : Matrix16) (raw : List Char) : LookupOutcome :=
  match raw.map Char.toUpper with
  | [c0, c1] =>
      match hexDigitVal c0, hexDigitVal c1 with
      | some high, some low => rangeGuardedQuery m (high : Int) (low : Int)
      | _, _ => .errFormat
  | _ => .silent

/-- `np.flipud` on the 16x16 matrix: row `h` of the result is row
`15 - h` of the argument. -/
def flipud (m : Matrix16) : Matrix16 := fun h l => m ⟨15 - h.val, by omega⟩ l

/-- The display matrix of the tab-2 heatmap (app.py lines 370-375):
`register_matrix_display = np.flipud(register_matrix.astype(float))`.
`astype(float)` copies the array without changing any value that the
model distinguishes, so it is the identity here; `flipud` builds a new
(view of the) array and leaves `register_matrix` untouched. -/
def register_matrix_display (m : Matrix16) : Matrix16 := flipud m

/-- Everything tab 2 derives from the loaded matrix in one render pass:
the flipped display copy fed to the heatmap, the stored matrix (which no
statement of the pass reassigns or writes to), and the address-lookup
outcome, which indexes the stored matrix, not the display copy
(app.py line 474: `register_matrix[high, low]`). -/
structure Tab2View where
  display : Matrix16
  stored : Matrix16
  lookup : LookupOutcome

/-- The tab-2 render pass (app.py lines 363-499) for a given loaded
matrix and address-input string. -/
def tab2View (register_matrix : Matrix16) (addrInput : List Char) : Tab2View :=
  { display := register_matrix_display register_matrix
    stored := register_matrix
    lookup := addrLookup register_matrix addrInput }

/-- A threshold-scan entry: the register address byte `16 * i + j`
(which the source renders as the string `f"0x{i:X}{j:X}"`) together with
the cell's coverage value. -/
abbrev ScanEntry := Nat × Int

/-- The iteration order of the scan loops (app.py lines 516-517):
`for i in range(16): for j in range(16):` — row-major. -/
def scanCells : List (Fin 16 × Fin 16) :=
  (List.finRange 16).flatMap fun i => (List.finRange 16).map fun j => (i, j)

/-- The body of the `problem_addrs` accumulation loop (app.py lines
515-536, the commented-out threshold scan): append `(address, value)`
whenever `register_matrix[i, j] < threshold`.  Comparing a string-dtype
cell with an integer raises `TypeError` in Python; that is the `error`
outcome. -/
def problem_addrs_aux (m : Matrix16) (threshold : Int) :
    List (Fin 16 × Fin 16) → List ScanEntry → Except Unit (List ScanEntry)
  | [], acc => .ok acc
  | ij :: rest, acc =>
      match m ij.1 ij.2 with
      | .num v =>
          problem_addrs_aux m threshold rest
            (if v < threshold then acc ++ [(16 * ij.1.val + ij.2.val, v)] else acc)
      | .str _ => .error ()

/-- The `problem_addrs` threshold scan (app.py lines 514-536; the block
is commented out in the source and is embedded as written there, being
the repository's only implementation of the threshold-scan contract). -/
def problem_addrs (m : Matrix16) (threshold : Int) : Except Unit (List ScanEntry) :=
  problem_addrs_aux m threshold scanCells []

/-- The high nibble of an address byte, `addressByte >> 4`. -/
def highNibble (a : Fin 256) : Fin 16 := ⟨a.val / 16, by omega⟩

/-- The low nibble of an address byte, `addressByte & 0xF`. -/
def lowNibble (a : Fin 256) : Fin 16 := ⟨a.val % 16, by omega⟩

/-- The `(address, value)` entry the threshold scan is expected to emit
for the address byte `a`: present exactly when the cell at
(high nibble, low nibble) is a number strictly below the threshold. -/
def belowEntry (m : Matrix16) (threshold : Int) (a : Fin 256) : Option ScanEntry :=
  match m (highNibble a) (lowNibble a) with
  | .num v => if v < threshold then some (a.val, v) else none
  | .str _ => none

/-- Refinement reference, following the spec's words for
`cellsBelowThreshold(threshold)`: the `(address, value)` pairs of every
cell whose value is strictly below the threshold, enumerated over the
256 addresses in row-major (= ascending-address) order. -/
def cellsBelowThreshold (m : Matrix16) (threshold : Int) : List ScanEntry :=
  (List.finRange 256).filterMap (belowEntry m threshold)

/-- The (high, low) cell of an address byte. -/
def byteCell (a : Fin 256) : Fin 16 × Fin 16 := (highNibble a, lowNibble a)

/-- The uppercase hex digit of a nibble, as in `f"{n:X}"`. -/
def hexChar (n : Fin 16) : Char :=
  Char.ofNat (if n.val < 10 then 48 + n.val else 55 + n.val)

/-- The two-character hex spelling of an address byte, the form the
tab-2 text input expects (e.g. `0xA3` is entered as `"A3"`). -/
def byteHexChars (a : Fin 256) : List Char :=
  [hexChar (highNibble a), hexChar (lowNibble a)]

/-- True iff a cell value is a number in the closed range `[0, 100]`. -/
def valInRange : PyVal → Bool
  | .num n => decide (0 ≤ n ∧ n ≤ 100)
  | .str _ => false

/-- The malformed-input conditions under which `load_register_matrix`
discards the external artifact: unreadable file, payload selection
failure (`raise ValueError`), or a payload whose `np.array` image is
neither 1-d of size 256 nor of shape `(16, 16)`. -/
def shapeRejected : LoadInput → Prop
  | .absent => False
  | .unreadable => True
  | .objNoMatrix => True
  | .otherTop => True
  | .objWithMatrix d => npShape d ≠ some [256] ∧ npShape d ≠ some [16, 16]
  | .bareArray d => npShape d ≠ some [256] ∧ npShape d ≠ some [16, 16]

set_option maxRecDepth 100000

/-! ### Helper lemmas shared by the claim theorems -/

/-- The demo fixture ignores the previous generator state: seeding
overwrites it. -/
theorem demoFrom_indep (prev : RngState) : demoFrom prev = demoFrom ⟨0⟩ := rfl

/-- The base fill of the demo fixture lies in `[60, 100]` in every cell. -/
theorem demoFill_mem_range (prev : RngState) (h l : Fin 16) :
    60 ≤ demoFill prev h l ∧ demoFill prev h l ≤ 100 := by
  have e : demoFill prev h l = demoFill ⟨0⟩ h l := rfl
  have hb : ∀ h2 l2 : Fin 16, 60 ≤ demoFill ⟨0⟩ h2 l2 ∧ demoFill ⟨0⟩ h2 l2 ≤ 100 := by decide
  rw [e]
  exact hb h l

/-- Uppercasing is the identity on the hex digit characters, and
`int(c, 16)` recovers the nibble. -/
theorem hexChar_facts : ∀ n : Fin 16,
    Char.toUpper (hexChar n) = hexChar n ∧ hexDigitVal (hexChar n) = some n.val := by
  decide

/-- The range guard accepts nibbles that are in `[0, 15]` by construction
and indexes the matrix at them. -/
theorem rangeGuardedQuery_natCast (m : Matrix16) (hi lo : Fin 16) :
    rangeGuardedQuery m (hi.val : Int) (lo.val : Int) = .shown (m hi lo) := by
  have h1 := hi.isLt
  have h2 := lo.isLt
  have hcond : (0 : Int) ≤ (hi.val : Int) ∧ (hi.val : Int) < 16
      ∧ (0 : Int) ≤ (lo.val : Int) ∧ (lo.val : Int) < 16 := by
    refine ⟨by omega, by omega, by omega, by omega⟩
  rw [rangeGuardedQuery, dif_pos hcond]
  rfl

/-- The full lookup on a two-hex-digit input shows the cell at
(high nibble, low nibble) of the stored matrix. -/
theorem addrLookup_hexPair (m : Matrix16) (hi lo : Fin 16) :
    addrLookup m [hexChar hi, hexChar lo] = .shown (m hi lo) := by
  have h1 := hexChar_facts hi
  have h2 := hexChar_facts lo
  unfold addrLookup
  rw [List.map_cons, List.map_cons, List.map_nil, h1.1, h2.1]
  show (match hexDigitVal (hexChar hi), hexDigitVal (hexChar lo) with
        | some high, some low => rangeGuardedQuery m (high : Int) (low : Int)
        | _, _ => LookupOutcome.errFormat) = _
  rw [h1.2, h2.2]
  exact rangeGuardedQuery_natCast m hi lo

/-- Nibble decomposition agrees with the bit-level forms
`addressByte >> 4` and `addressByte & 0xF`. -/
theorem nibble_shift_forms : ∀ a : Fin 256,
    a.val / 16 = a.val >>> 4 ∧ a.val % 16 = a.val &&& 15 := by
  decide

/-! ### Claim theorems -/

/-- C1: for every address byte the lookup decomposes it into
high nibble `a >> 4` and low nibble `a & 0xF` and returns
`matrix[high][low]`; in particular the query for `0xA3` returns
`matrix[10][3]`. -/
theorem c1_address_decomposition (m : Matrix16) (a : Fin 256) :
    addrLookup m (byteHexChars a) = .shown (m (highNibble a) (lowNibble a))
    ∧ (highNibble a).val = a.val >>> 4
    ∧ (lowNibble a).val = a.val &&& 15
    ∧ addrLookup m (byteHexChars ⟨0xA3, by norm_num⟩)
        = .shown (m ⟨10, by norm_num⟩ ⟨3, by norm_num⟩) :=
  ⟨addrLookup_hexPair m (highNibble a) (lowNibble a),
   (nibble_shift_forms a).1,
   (nibble_shift_forms a).2,
   addrLookup_hexPair m ⟨10, by norm_num⟩ ⟨3, by norm_num⟩⟩

/-- C2: a flat numeric sequence of exactly 256 elements is reshaped
row-major: cell `(h, l)` is `flat[16 * h + l]`. -/
theorem c2_flat_reshape_row_major (xs : List Int) (prev : RngState)
    (hlen : xs.length = 256) (h l : Fin 16) :
    load_register_matrix (.bareArray (.flat (xs.map PyVal.num))) prev h l
      = .num (xs.getD (16 * h.val + l.val) 0) := by
  have hsh : npShape (.flat (xs.map PyVal.num)) = some [256] := by
    simp [npShape, hlen]
  have hidx : 16 * h.val + l.val < xs.length := by
    have hh := h.isLt
    have hl := l.isLt
    omega
  have hidx2 : 16 * h.val + l.val < (xs.map PyVal.num).length := by
    simpa using hidx
  show buildOrDemo (.flat (xs.map PyVal.num)) prev h l = _
  simp only [buildOrDemo, hsh]
  show (xs.map PyVal.num).getD (16 * h.val + l.val) (.num 0) = _
  rw [List.getD_eq_getElem?_getD, List.getElem?_eq_getElem hidx2,
    List.getElem_map, Option.getD_some,
    List.getD_eq_getElem?_getD, List.getElem?_eq_getElem hidx, Option.getD_some]

/-- C2 witness at the concrete flat list `[0, 1, ..., 255]`. -/
theorem c2_flat_reshape_row_major_witness :
    ((List.range 256).map Int.ofNat).length = 256
    ∧ load_register_matrix
        (.bareArray (.flat (((List.range 256).map Int.ofNat).map PyVal.num))) ⟨0⟩ 2 3
      = .num (((List.range 256).map Int.ofNat).getD (16 * (2 : Fin 16).val + (3 : Fin 16).val) 0) :=
  ⟨by rw [List.length_map, List.length_range],
   c2_flat_reshape_row_major _ ⟨0⟩ (by rw [List.length_map, List.length_range]) 2 3⟩

/-- C3 counterexample: a flat sequence of 256 non-numeric (string)
elements passes the shape test and is returned as loaded, so construction
does not substitute the synthetic fixture for it. -/
theorem c3_nonnumeric_counterexample :
    load_register_matrix (.bareArray (.flat (List.replicate 256 (.str "x")))) ⟨0⟩ 0 0
      = .str "x"
    ∧ load_register_matrix (.bareArray (.flat (List.replicate 256 (.str "x")))) ⟨0⟩ 0 0
        ≠ load_register_matrix .absent ⟨0⟩ 0 0 := by
  constructor
  · decide
  · decide

/-- C3 amended: every external input that fails shape validation —
an unreadable or unparsable file, a payload-selection failure, or a
payload that is neither 1-d of size 256 nor 16x16 — yields exactly the
absent-input fixture, and (the embedding being total) no exception
escapes; non-numeric content of a valid shape, however, is returned
as-is. -/
theorem c3_shape_malformed_fallback (inp : LoadInput) (prev : RngState)
    (hrej : shapeRejected inp) :
    load_register_matrix inp prev = load_register_matrix .absent prev := by
  have reject : ∀ d : NpData, npShape d ≠ some [256] → npShape d ≠ some [16, 16] →
      buildOrDemo d prev = demoFrom prev := by
    intro d h1 h2
    unfold buildOrDemo
    split
    · rfl
    next s hs =>
      rw [if_neg fun h => h1 (by rw [hs, h]), if_neg fun h => h2 (by rw [hs, h])]
  cases inp with
  | absent => exact absurd hrej (by simp [shapeRejected])
  | unreadable => rfl
  | objNoMatrix => rfl
  | otherTop => rfl
  | objWithMatrix d => exact reject d hrej.1 hrej.2
  | bareArray d => exact reject d hrej.1 hrej.2

/-- C3 witness: a flat sequence of 200 numbers (wrong length) falls back
to the fixture. -/
theorem c3_shape_malformed_fallback_witness :
    shapeRejected (.bareArray (.flat (List.replicate 200 (.num 1))))
    ∧ load_register_matrix (.bareArray (.flat (List.replicate 200 (.num 1)))) ⟨0⟩
        = load_register_matrix .absent ⟨0⟩ :=
  ⟨⟨by decide, by decide⟩,
   c3_shape_malformed_fallback _ ⟨0⟩ ⟨by decide, by decide⟩⟩

/-- C4: on absent input the fixture is the seed-42 uniform fill with
values in `[60, 100]`, with exactly the three cells `(5,5) = 45`,
`(10,10) = 52`, `(3,12) = 38` overwritten: every other cell keeps its
fill value. -/
theorem c4_synthetic_fixture_construction (prev : RngState) :
    load_register_matrix .absent prev 5 5 = .num 45
    ∧ load_register_matrix .absent prev 10 10 = .num 52
    ∧ load_register_matrix .absent prev 3 12 = .num 38
    ∧ ∀ h l : Fin 16, ¬(h = 5 ∧ l = 5) → ¬(h = 10 ∧ l = 10) → ¬(h = 3 ∧ l = 12) →
        load_register_matrix .absent prev h l = .num (demoFill prev h l)
        ∧ 60 ≤ demoFill prev h l ∧ demoFill prev h l ≤ 100 := by
  refine ⟨rfl, rfl, rfl, ?_⟩
  intro h l h5 h10 h3
  refine ⟨?_, (demoFill_mem_range prev h l).1, (demoFill_mem_range prev h l).2⟩
  show demoFrom prev h l = _
  simp only [demoFrom, setCell, if_neg h3, if_neg h10, if_neg h5]

/-- C4 witness at the non-overridden cell `(0, 1)`. -/
theorem c4_synthetic_fixture_construction_witness :
    load_register_matrix .absent ⟨0⟩ 0 1 = .num (demoFill ⟨0⟩ 0 1)
    ∧ 60 ≤ demoFill ⟨0⟩ 0 1 ∧ demoFill ⟨0⟩ 0 1 ≤ 100 :=
  (c4_synthetic_fixture_construction ⟨0⟩).2.2.2 0 1 (by decide) (by decide) (by decide)

/-- C5: synthetic-fixture generation is deterministic — two runs from any
two previous generator states produce identical matrices, because the
fixed seed overwrites the state; the three overridden cells hold their
fixed values. -/
theorem c5_synthetic_fixture_deterministic (p q : RngState) :
    load_register_matrix .absent p = load_register_matrix .absent q
    ∧ (∀ h l : Fin 16, load_register_matrix .absent p h l
        = load_register_matrix .absent q h l)
    ∧ load_register_matrix .absent p 5 5 = .num 45
    ∧ load_register_matrix .absent p 10 10 = .num 52
    ∧ load_register_matrix .absent p 3 12 = .num 38 :=
  ⟨rfl, fun _ _ => rfl, rfl, rfl, rfl⟩

/-- C6: the vertical flip is presentation-only — the render pass keeps
the stored matrix intact, the display is the flip of the storage (and
flipping twice restores it, so nothing is persisted), and the point
query reads the unflipped storage. -/
theorem c6_flip_presentation_only (m : Matrix16) (raw : List Char) (a : Fin 256) :
    (tab2View m raw).stored = m
    ∧ (tab2View m raw).display = flipud m
    ∧ flipud (flipud m) = m
    ∧ (tab2View m raw).lookup = addrLookup (tab2View m raw).stored raw
    ∧ (tab2View m (byteHexChars a)).lookup
        = .shown (m (highNibble a) (lowNibble a)) := by
  refine ⟨rfl, rfl, ?_, rfl, addrLookup_hexPair m (highNibble a) (lowNibble a)⟩
  funext h l
  have hlt := h.isLt
  show m ⟨15 - (15 - h.val), by omega⟩ l = m h l
  exact congrArg₂ (fun h2 l2 => m h2 l2) (Fin.ext (by simp; omega)) rfl

/-- C7: a range-guarded query with a high or low nibble outside
`[0, 15]` produces the surfaced range error — not a silent no-op and not
a value. -/
theorem c7_range_error_surfaced (m : Matrix16) (high low : Int)
    (hout : ¬(0 ≤ high ∧ high < 16 ∧ 0 ≤ low ∧ low < 16)) :
    rangeGuardedQuery m high low = .errRange
    ∧ rangeGuardedQuery m high low ≠ .silent
    ∧ ∀ v, rangeGuardedQuery m high low ≠ .shown v := by
  have h : rangeGuardedQuery m high low = .errRange := by
    rw [rangeGuardedQuery, dif_neg hout]
  refine ⟨h, ?_, ?_⟩
  · simp [h]
  · intro v
    simp [h]

/-- C7 witness at the out-of-range queries `(16, 0)` and `(-1, 0)`. -/
theorem c7_range_error_surfaced_witness :
    rangeGuardedQuery (fun _ _ => .num 0) 16 0 = .errRange
    ∧ rangeGuardedQuery (fun _ _ => .num 0) (-1) 0 = .errRange :=
  ⟨(c7_range_error_surfaced (fun _ _ => .num 0) 16 0 (by omega)).1,
   (c7_range_error_surfaced (fun _ _ => .num 0) (-1) 0 (by omega)).1⟩

/-- C8 counterexample: a flat-256 input of the value 150 is accepted
(only the shape is validated) and the constructed matrix holds 150,
outside the closed range `[0, 100]`. -/
theorem c8_range_invariant_counterexample :
    load_register_matrix (.bareArray (.flat (List.replicate 256 (.num 150)))) ⟨0⟩ 0 0
      = .num 150
    ∧ valInRange
        (load_register_matrix (.bareArray (.flat (List.replicate 256 (.num 150)))) ⟨0⟩ 0 0)
      = false := by
  constructor
  · decide
  · decide

/-- C8 amended: the range invariant holds for the synthetic fixture —
every cell of the absent-input matrix is a number in `[0, 100]` —
while externally supplied matrices are only shape-validated. -/
theorem c8_fixture_cells_in_range (prev : RngState) (h l : Fin 16) :
    valInRange (load_register_matrix .absent prev h l) = true := by
  have e : load_register_matrix .absent prev = load_register_matrix .absent ⟨0⟩ := rfl
  rw [e]
  revert h l
  decide

/-- C10: an input whose length after uppercasing is not exactly two
characters is answered with neither a value nor an error message: the
lookup is a silent no-op. -/
theorem c10_silent_on_bad_length (m : Matrix16) (raw : List Char)
    (hlen : (raw.map Char.toUpper).length ≠ 2) :
    addrLookup m raw = .silent := by
  unfold addrLookup
  generalize hg : raw.map Char.toUpper = u at hlen ⊢
  match u with
  | [] => rfl
  | [c0] => rfl
  | [c0, c1] => exact absurd rfl hlen
  | c0 :: c1 :: c2 :: rest => rfl

/-- C10 witness at the one-character input `"A"`. -/
theorem c10_silent_on_bad_length_witness :
    addrLookup (fun _ _ => .num 0) ['A'] = .silent :=
  c10_silent_on_bad_length (fun _ _ => .num 0) ['A'] (by decide)

/-! ### C9: the threshold scan -/

/-- The nested row-major loops visit exactly the cells of the 256
address bytes in ascending-address order. -/
theorem scanCells_eq : scanCells = (List.finRange 256).map byteCell := by
  decide

/-- The address byte of a cell recombines its nibbles. -/
theorem byteCell_addr (a : Fin 256) :
    16 * (byteCell a).1.val + (byteCell a).2.val = a.val :=
  Nat.div_add_mod a.val 16

/-- The high nibble of a recombined address byte. -/
theorem highNibble_mk (i j : Fin 16) :
    highNibble ⟨16 * i.val + j.val, by have := i.isLt; have := j.isLt; omega⟩ = i := by
  have hi := i.isLt
  have hj := j.isLt
  refine Fin.ext ?_
  show (16 * i.val + j.val) / 16 = i.val
  omega

/-- The low nibble of a recombined address byte. -/
theorem lowNibble_mk (i j : Fin 16) :
    lowNibble ⟨16 * i.val + j.val, by have := i.isLt; have := j.isLt; omega⟩ = j := by
  have hi := i.isLt
  have hj := j.isLt
  refine Fin.ext ?_
  show (16 * i.val + j.val) % 16 = j.val
  omega

/-- On cells that never raise (numeric cells), the accumulation loop of
the scan returns the accumulator followed by the filtered entries. -/
theorem problem_addrs_aux_ok (m : Matrix16) (t : Int)
    (cells : List (Fin 16 × Fin 16)) :
    ∀ acc : List ScanEntry,
      (∀ ij ∈ cells, (m ij.1 ij.2).isNum = true) →
      problem_addrs_aux m t cells acc
        = .ok (acc ++ cells.filterMap fun ij =>
            match m ij.1 ij.2 with
            | .num v => if v < t then some (16 * ij.1.val + ij.2.val, v) else none
            | .str _ => none) := by
  induction cells with
  | nil => intro acc _; simp [problem_addrs_aux]
  | cons ij rest IH =>
      intro acc hnum
      have hij := hnum ij (by simp)
      have hrest : ∀ p ∈ rest, (m p.1 p.2).isNum = true := fun p hp =>
        hnum p (by simp [hp])
      rcases hm : m ij.1 ij.2 with v | sv
      · rw [problem_addrs_aux, hm]
        show problem_addrs_aux m t rest
            (if v < t then acc ++ [(16 * ij.1.val + ij.2.val, v)] else acc) = _
        by_cases hv : v < t
        · rw [if_pos hv, IH _ hrest, List.filterMap_cons]
          simp [hm, hv]
        · rw [if_neg hv, IH _ hrest, List.filterMap_cons]
          simp [hm, hv]
      · rw [hm] at hij
        exact absurd hij (by simp [PyVal.isNum])

/-- On an all-numeric matrix the scan succeeds and produces exactly the
reference row-major below-threshold entries. -/
theorem problem_addrs_eq_spec (m : Matrix16) (t : Int)
    (hnum : ∀ i j : Fin 16, (m i j).isNum = true) :
    problem_addrs m t = .ok (cellsBelowThreshold m t) := by
  rw [problem_addrs,
    problem_addrs_aux_ok m t scanCells [] (fun ij _ => hnum ij.1 ij.2),
    List.nil_append, scanCells_eq, List.filterMap_map]
  rfl

/-- A scan entry for address byte `a` carries `a` itself as its address
component. -/
theorem belowEntry_fst (m : Matrix16) (t : Int) (a : Fin 256) (e : ScanEntry)
    (he : belowEntry m t a = some e) : e.1 = a.val := by
  rcases hm : m (highNibble a) (lowNibble a) with v | sv
  · simp only [belowEntry, hm] at he
    by_cases hv : v < t
    · rw [if_pos hv] at he
      cases he
      rfl
    · rw [if_neg hv] at he
      cases he
  · simp only [belowEntry, hm] at he
    cases he

/-- The scan output is strictly ascending in the address component:
row-major order. -/
theorem cellsBelowThreshold_sorted (m : Matrix16) (t : Int) :
    ((cellsBelowThreshold m t).map Prod.fst).Pairwise (· < ·) := by
  rw [cellsBelowThreshold, List.map_filterMap, List.pairwise_filterMap]
  refine (List.pairwise_lt_finRange 256).imp ?_
  intro a b hab x hx y hy
  have hxa : x = a.val := by
    rcases he : belowEntry m t a with - | e
    · rw [he] at hx
      cases hx
    · rw [he] at hx
      cases hx
      exact belowEntry_fst m t a e he
  have hyb : y = b.val := by
    rcases he : belowEntry m t b with - | e
    · rw [he] at hy
      cases hy
    · rw [he] at hy
      cases hy
      exact belowEntry_fst m t b e he
  rw [hxa, hyb]
  exact hab

/-- The scan output contains exactly the below-threshold numeric cells,
addressed by their byte. -/
theorem cellsBelowThreshold_mem (m : Matrix16) (t : Int) (x : Nat) (v : Int) :
    (x, v) ∈ cellsBelowThreshold m t
      ↔ ∃ i j : Fin 16, x = 16 * i.val + j.val ∧ m i j = .num v ∧ v < t := by
  rw [cellsBelowThreshold, List.mem_filterMap]
  constructor
  · rintro ⟨a, -, ha⟩
    rcases hm : m (highNibble a) (lowNibble a) with w | sw
    · simp only [belowEntry, hm] at ha
      by_cases hw : w < t
      · rw [if_pos hw] at ha
        simp only [Option.some.injEq, Prod.mk.injEq] at ha
        obtain ⟨hax, hwv⟩ := ha
        refine ⟨highNibble a, lowNibble a, ?_, ?_, ?_⟩
        · rw [← hax]
          exact (byteCell_addr a).symm
        · rw [hm, hwv]
        · rw [← hwv]
          exact hw
      · rw [if_neg hw] at ha
        cases ha
    · simp only [belowEntry, hm] at ha
      cases ha
  · rintro ⟨i, j, hx, hmv, hv⟩
    refine ⟨⟨16 * i.val + j.val, by have := i.isLt; have := j.isLt; omega⟩,
      List.mem_finRange _, ?_⟩
    simp only [belowEntry, highNibble_mk i j, lowNibble_mk i j, hmv, if_pos hv, hx]

/-- C9: on an all-numeric matrix the threshold scan yields exactly the
(address, value) pairs of cells with value strictly below the threshold,
in row-major (ascending-address) order; on the synthetic fixture the
scan at threshold 70 includes addresses 0x55, 0xAA and 0x3C with values
45, 52 and 38. -/
theorem c9_cells_below_threshold (m : Matrix16) (t : Int) (prev : RngState)
    (hnum : ∀ i j : Fin 16, (m i j).isNum = true) :
    problem_addrs m t = .ok (cellsBelowThreshold m t)
    ∧ ((cellsBelowThreshold m t).map Prod.fst).Pairwise (· < ·)
    ∧ (∀ (x : Nat) (v : Int),
        (x, v) ∈ cellsBelowThreshold m t
          ↔ ∃ i j : Fin 16, x = 16 * i.val + j.val ∧ m i j = .num v ∧ v < t)
    ∧ (0x55, (45 : Int)) ∈ cellsBelowThreshold (load_register_matrix .absent prev) 70
    ∧ (0xAA, (52 : Int)) ∈ cellsBelowThreshold (load_register_matrix .absent prev) 70
    ∧ (0x3C, (38 : Int)) ∈ cellsBelowThreshold (load_register_matrix .absent prev) 70
    ∧ problem_addrs (load_register_matrix .absent prev) 70
        = .ok (cellsBelowThreshold (load_register_matrix .absent prev) 70) := by
  have edemo : load_register_matrix .absent prev = load_register_matrix .absent ⟨0⟩ := rfl
  have hdemo_num : ∀ i j : Fin 16,
      (load_register_matrix .absent prev i j).isNum = true := by
    rw [edemo]
    decide
  refine ⟨problem_addrs_eq_spec m t hnum, cellsBelowThreshold_sorted m t,
    cellsBelowThreshold_mem m t, ?_, ?_, ?_,
    problem_addrs_eq_spec _ 70 hdemo_num⟩
  · rw [edemo]
    decide
  · rw [edemo]
    decide
  · rw [edemo]
    decide

/-- C9 witness: the fixture membership at a concrete state, and the scan
against a concrete all-numeric constant matrix. -/
theorem c9_cells_below_threshold_witness :
    (∀ i j : Fin 16, (((fun _ _ => PyVal.num 50) : Matrix16) i j).isNum = true)
    ∧ (0x55, (45 : Int)) ∈ cellsBelowThreshold (load_register_matrix .absent ⟨0⟩) 70
    ∧ problem_addrs ((fun _ _ => PyVal.num 50) : Matrix16) 60
        = .ok (cellsBelowThreshold ((fun _ _ => PyVal.num 50) : Matrix16) 60) :=
  ⟨fun _ _ => rfl,
   (c9_cells_below_threshold (fun _ _ => PyVal.num 50) 60 ⟨0⟩ fun _ _ => rfl).2.2.2.1,
   (c9_cells_below_threshold (fun _ _ => PyVal.num 50) 60 ⟨0⟩ fun _ _ => rfl).1⟩
